import Mathlib

/-!
Verification development for the LiteTable.js core: a shallow embedding of
the table engine (filter, sort, paginate pipeline), the utility functions,
the virtual-scroll plugin and the server-side fetch manager, together with
theorems settling the specification claims.

Sources embedded:
- packages/core/src/utils.ts  (getCellValue, compareValues, defaultFilterFn,
  createPaginationState, generateRowId)
- packages/core/src/table.ts  (LiteTable class: state, processData, mutators)
- packages/core/src/plugins/virtual-scroll.ts  (calculateVirtualScroll,
  getVirtualRows, VirtualScrollManager.getVisibleRows)
- packages/core/src/plugins/server-side.ts  (ServerSideManager.fetchData,
  cancel, destroy), modelled as a small-step state machine.
-/

namespace LiteTable

/-- Cell values. JS primitive values that the comparator and filter inspect.
JS null and undefined are both modelled as `Value.null` (the source treats
them identically via loose equality a == null and the
value !== undefined ? value : null normalisation). Date values are not
modelled; no claim involves them. JS numbers are modelled as integers. -/
inductive Value where
  | null
  | str (s : String)
  | num (n : Int)
  | bool (b : Bool)
deriving DecidableEq, Repr

/-- A row is an opaque JS object, modelled as an association list from
property names to values. -/
def Row := List (String × Value)
deriving DecidableEq, Repr

/-- Sort directions. -/
inductive SortDirection where
  | asc
  | desc
deriving DecidableEq, Repr

/-- Sort state: source shape is a columnId : string|null and a
direction : SortDirection|null pair. -/
structure SortState where
  columnId : Option String
  direction : Option SortDirection
deriving DecidableEq, Repr

/-- Column descriptor (fields relevant to the embedded code paths).
The optional sortable and filterable flags collapse undefined and true,
which is faithful because the source only ever tests === false on them. -/
structure Column where
  id : String
  sortable : Bool := true
  filterable : Bool := true
  hidden : Bool := false
  accessor : Option (Row → Value) := none
  sortFn : Option (Row → Row → SortDirection → Int) := none

/-- JS String(value) for the values the code stringifies (non-null cases
are the only ones reached in compareValues' fallback and in the filter). -/
def jsString : Value → String
  | .null => "null"
  | .str s => s
  | .num n => toString n
  | .bool b => if b then "true" else "false"

/-- Code-point string comparison returning -1, 0 or 1; models
String.prototype.localeCompare on the lowered strings. -/
def strCompare (a b : String) : Int :=
  match compare a b with
  | .lt => -1
  | .eq => 0
  | .gt => 1

/-- Flip the sign of a comparison result when the direction is desc;
models the direction === asc ? result : -result pattern. -/
def dirSign (direction : SortDirection) (r : Int) : Int :=
  if direction = .asc then r else -r

/-- utils.ts compareValues: null handling first (nulls always ordered to
the end, independent of direction), then same-type branches, then the
string fallback for mixed types. -/
def compareValues (a b : Value) (direction : SortDirection) : Int :=
  match a, b with
  | .null, .null => 0
  | .null, _ => 1
  | _, .null => -1
  | .str sa, .str sb => dirSign direction (strCompare sa.toLower sb.toLower)
  | .num na, .num nb => if direction = .asc then na - nb else nb - na
  | .bool ba, .bool bb =>
      dirSign direction ((if ba then (1 : Int) else 0) - (if bb then 1 else 0))
  | va, vb => dirSign direction (strCompare (jsString va).toLower (jsString vb).toLower)

/-- utils.ts getCellValue: custom accessor if provided, else property
lookup by column id with undefined normalised to null. -/
def getCellValue (row : Row) (column : Column) : Value :=
  match column.accessor with
  | some f => f row
  | none =>
    match row.lookup column.id with
    | some v => v
    | none => .null

/-- Character-list membership of one list as a contiguous run of another;
models String.prototype.includes (empty needle always matches). -/
def subListOf (needle : List Char) : List Char → Bool
  | [] => needle.isEmpty
  | c :: rest => needle.isPrefixOf (c :: rest) || subListOf needle rest

/-- hay.includes(needle) for strings. -/
def strIncl (hay needle : String) : Bool :=
  subListOf needle.data hay.data

/-- utils.ts defaultFilterFn: case-insensitive substring match of the term
against every filterable column's stringified cell value, skipping null
cells, with early return on the first match. -/
def defaultFilterFn (row : Row) (searchTerm : String) (columns : List Column) : Bool :=
  if searchTerm = "" then true
  else
    let lowerSearch := searchTerm.toLower
    columns.any fun column =>
      if column.filterable = false then false
      else
        match getCellValue row column with
        | .null => false
        | v => strIncl (jsString v).toLower lowerSearch

/-- Math.ceil(a / b) for naturals (b positive in every use site). -/
def ceilDiv (a b : Nat) : Nat := (a + b - 1) / b

/-- Pagination descriptor as produced by createPaginationState. -/
structure PaginationState where
  page : Nat
  pageSize : Nat
  pageSizeOptions : List Nat
  totalRows : Nat
  totalPages : Nat
  startIndex : Nat
  endIndex : Nat
  hasPrevPage : Bool
  hasNextPage : Bool
deriving DecidableEq, Repr

/-- utils.ts createPaginationState. The requested page is an Int so that
negative JS inputs are modelled; all derived fields are naturals. -/
def createPaginationState (page : Int) (pageSize totalRows : Nat)
    (pageSizeOptions : List Nat) : PaginationState :=
  let totalPages := max 1 (ceilDiv totalRows pageSize)
  let safePage : Nat := (min (max 1 page) (totalPages : Int)).toNat
  let startIndex := (safePage - 1) * pageSize
  let endIndex := min (startIndex + pageSize) totalRows
  { page := safePage
    pageSize := pageSize
    pageSizeOptions := pageSizeOptions
    totalRows := totalRows
    totalPages := totalPages
    startIndex := startIndex
    endIndex := endIndex
    hasPrevPage := decide (safePage > 1)
    hasNextPage := decide (safePage < totalPages) }

/-- utils.ts generateRowId: use a string or number id property when
present, else fall back to the index-derived id. -/
def generateRowId (row : Row) (index : Nat) : String :=
  match row.lookup "id" with
  | some (.str s) => s
  | some (.num n) => toString n
  | _ => "row-" ++ toString index

/-- Stable insertion into a list: x is placed before the first element y
with cmp-le x y; later elements keep their relative order. -/
def insertCmp (le : α → α → Bool) (x : α) : List α → List α
  | [] => [x]
  | y :: ys => if le x y then x :: y :: ys else y :: insertCmp le x ys

/-- Stable sort by a boolean comparator; models the ES2019 guarantee that
Array.prototype.sort is stable, with le a b meaning cmp(a, b) <= 0. -/
def stableSort (le : α → α → Bool) : List α → List α
  | [] => []
  | x :: xs => insertCmp le x (stableSort le xs)

/-- Resolved table options (after the constructor's ??-defaulting).
multiSort is reserved and unused by the embedded code paths. -/
structure TableOptions where
  data : List Row
  columns : List Column
  searchable : Bool
  filterFn : Row → String → List Column → Bool
  defaultSort : SortState
  getRowId : Row → Nat → String
  pagination : Option PaginationState

/-- Internal table state, as in table.ts. hiddenColumns is a Set of
column ids, modelled as a duplicate-free insertion-ordered list. -/
structure TableState where
  originalData : List Row
  filteredData : List Row
  sortedData : List Row
  paginatedData : List Row
  sortState : SortState
  searchTerm : String
  paginationState : Option PaginationState
  hiddenColumns : List String

/-- LiteTable.filterData: no-op when not searchable or the term is empty,
else keep the rows accepted by the configured predicate. -/
def filterData (opts : TableOptions) (data : List Row) (searchTerm : String) : List Row :=
  if opts.searchable = false ∨ searchTerm = "" then data
  else data.filter fun row => opts.filterFn row searchTerm opts.columns

/-- LiteTable.sortData: no-op when no sort column or direction is set
(including the falsy empty-string column id), when the column is unknown,
or when it is marked non-sortable; otherwise stable-sort a copy of the
input by the column's custom comparator or the default one. -/
def sortData (columns : List Column) (data : List Row) (sortState : SortState) : List Row :=
  match sortState.columnId, sortState.direction with
  | some columnId, some direction =>
    if columnId = "" then data
    else
      match columns.find? (fun col => col.id == columnId) with
      | none => data
      | some column =>
        if column.sortable = false then data
        else
          let cmp : Row → Row → Int := fun a b =>
            match column.sortFn with
            | some f => f a b direction
            | none => compareValues (getCellValue a column) (getCellValue b column) direction
          stableSort (fun a b => decide (cmp a b ≤ 0)) data
  | _, _ => data

/-- LiteTable.paginateData: identity without pagination, else the
slice [startIndex, endIndex) of the input. -/
def paginateData (data : List Row) : Option PaginationState → List Row
  | none => data
  | some p => (data.drop p.startIndex).take (p.endIndex - p.startIndex)

/-- LiteTable.processData: filter, then sort, then refresh the pagination
descriptor against the sorted length, then paginate. -/
def processData (opts : TableOptions) (s : TableState) : TableState :=
  let filtered := filterData opts s.originalData s.searchTerm
  let sorted := sortData opts.columns filtered s.sortState
  let pag :=
    match s.paginationState with
    | none => none
    | some p =>
        some (createPaginationState (p.page : Int) p.pageSize sorted.length p.pageSizeOptions)
  { s with
    filteredData := filtered
    sortedData := sorted
    paginationState := pag
    paginatedData := paginateData sorted pag }

/-- LiteTable.createInitialState. -/
def createInitialState (opts : TableOptions) : TableState :=
  { originalData := opts.data
    filteredData := []
    sortedData := []
    paginatedData := []
    sortState := opts.defaultSort
    searchTerm := ""
    paginationState := opts.pagination
    hiddenColumns := (opts.columns.filter (·.hidden)).map (·.id) }

/-- The constructor: createInitialState followed by processData. -/
def initTable (opts : TableOptions) : TableState :=
  processData opts (createInitialState opts)

/-- LiteTable.getRows. -/
def getRows (s : TableState) : List Row := s.paginatedData

/-- LiteTable.getAllRows. -/
def getAllRows (s : TableState) : List Row := s.sortedData

/-- LiteTable.sortBy: no-op for unknown or non-sortable columns; when the
direction is omitted, a new column starts ascending and the same column
toggles asc and desc. -/
def sortBy (opts : TableOptions) (s : TableState) (columnId : String)
    (direction : Option SortDirection) : TableState :=
  match opts.columns.find? (fun col => col.id == columnId) with
  | none => s
  | some column =>
    if column.sortable = false then s
    else
      let newDirection :=
        match direction with
        | some d => d
        | none =>
          if s.sortState.columnId = some columnId then
            if s.sortState.direction = some .asc then SortDirection.desc else .asc
          else .asc
      processData opts
        { s with sortState := { columnId := some columnId, direction := some newDirection } }

/-- LiteTable.clearSort. -/
def clearSort (opts : TableOptions) (s : TableState) : TableState :=
  processData opts { s with sortState := { columnId := none, direction := none } }

/-- LiteTable.search: set the term, reset the page to 1 when paginated,
re-run the pipeline. -/
def search (opts : TableOptions) (s : TableState) (term : String) : TableState :=
  processData opts
    { s with
      searchTerm := term
      paginationState := s.paginationState.map fun p => { p with page := 1 } }

/-- LiteTable.goToPage: clamp the requested page to [1, totalPages],
rebuild the descriptor against the sorted length, re-run the pipeline. -/
def goToPage (opts : TableOptions) (s : TableState) (page : Int) : TableState :=
  match s.paginationState with
  | none => s
  | some p =>
    let safePage : Int := min (max 1 page) (p.totalPages : Int)
    processData opts
      { s with
        paginationState :=
          some (createPaginationState safePage p.pageSize s.sortedData.length p.pageSizeOptions) }

/-- LiteTable.nextPage: no-op unless hasNextPage. -/
def nextPage (opts : TableOptions) (s : TableState) : TableState :=
  match s.paginationState with
  | some p => if p.hasNextPage then goToPage opts s ((p.page : Int) + 1) else s
  | none => s

/-- LiteTable.prevPage: no-op unless hasPrevPage. -/
def prevPage (opts : TableOptions) (s : TableState) : TableState :=
  match s.paginationState with
  | some p => if p.hasPrevPage then goToPage opts s ((p.page : Int) - 1) else s
  | none => s

/-- LiteTable.setPageSize: reset to page 1 with the new size. -/
def setPageSize (opts : TableOptions) (s : TableState) (size : Nat) : TableState :=
  match s.paginationState with
  | none => s
  | some p =>
    processData opts
      { s with
        paginationState :=
          some (createPaginationState 1 size s.sortedData.length p.pageSizeOptions) }

/-- LiteTable.toggleColumn. -/
def toggleColumn (s : TableState) (columnId : String) : TableState :=
  if s.hiddenColumns.contains columnId then
    { s with hiddenColumns := s.hiddenColumns.erase columnId }
  else
    { s with hiddenColumns := s.hiddenColumns ++ [columnId] }

/-- LiteTable.showColumn. -/
def showColumn (s : TableState) (columnId : String) : TableState :=
  { s with hiddenColumns := s.hiddenColumns.erase columnId }

/-- LiteTable.hideColumn. -/
def hideColumn (s : TableState) (columnId : String) : TableState :=
  if s.hiddenColumns.contains columnId then s
  else { s with hiddenColumns := s.hiddenColumns ++ [columnId] }

/-- LiteTable.reset: rebuild the whole state from the construction-time
options and re-run the pipeline. -/
def resetTable (opts : TableOptions) (_s : TableState) : TableState :=
  processData opts (createInitialState opts)

/-- LiteTable.setData: replace originalData wholesale, re-run pipeline. -/
def setData (opts : TableOptions) (s : TableState) (data : List Row) : TableState :=
  processData opts { s with originalData := data }

/-- Array.prototype.find with the index argument, as used by getRowById. -/
def findWithIndex (pred : Row → Nat → Bool) : List Row → Nat → Option Row
  | [], _ => none
  | r :: rs, i => if pred r i then some r else findWithIndex pred rs (i + 1)

/-- LiteTable.getRowById: linear scan over originalData comparing the
derived row id; Array.find returns the first match. -/
def getRowById (opts : TableOptions) (s : TableState) (id : String) : Option Row :=
  findWithIndex (fun row index => opts.getRowId row index == id) s.originalData 0

/-- States reachable from the constructor through the public mutators.
setPageSize is restricted to positive sizes, matching the claims'
pageSize > 0 scope (a zero size produces NaN arithmetic in JS, outside
the integer model). -/
inductive Reachable (opts : TableOptions) : TableState → Prop where
  | init : Reachable opts (initTable opts)
  | sortBy (s cid dir) : Reachable opts s → Reachable opts (sortBy opts s cid dir)
  | clearSort (s) : Reachable opts s → Reachable opts (clearSort opts s)
  | search (s term) : Reachable opts s → Reachable opts (search opts s term)
  | goToPage (s page) : Reachable opts s → Reachable opts (goToPage opts s page)
  | nextPage (s) : Reachable opts s → Reachable opts (nextPage opts s)
  | prevPage (s) : Reachable opts s → Reachable opts (prevPage opts s)
  | setPageSize (s size) (hsize : 0 < size) :
      Reachable opts s → Reachable opts (setPageSize opts s size)
  | toggleColumn (s cid) : Reachable opts s → Reachable opts (toggleColumn s cid)
  | showColumn (s cid) : Reachable opts s → Reachable opts (showColumn s cid)
  | hideColumn (s cid) : Reachable opts s → Reachable opts (hideColumn s cid)
  | reset (s) : Reachable opts s → Reachable opts (resetTable opts s)
  | setData (s rows) : Reachable opts s → Reachable opts (setData opts s rows)

/-- Virtual scroll configuration after the constructor's defaulting
(overscan ?? 5, enabled unused by the arithmetic). Heights are pixels. -/
structure VirtualScrollConfig where
  rowHeight : Nat
  overscan : Nat
  containerHeight : Nat
deriving DecidableEq, Repr

/-- Virtual scroll state as returned by calculateVirtualScroll. scrollTop
is kept as an integer because the manager accepts arbitrary (possibly
negative) scroll offsets. -/
structure VirtualScrollState where
  startIndex : Nat
  endIndex : Nat
  totalHeight : Nat
  scrollTop : Int
  visibleRows : Nat
  offsetY : Nat
deriving DecidableEq, Repr

/-- virtual-scroll.ts calculateVirtualScroll. Math.floor(scrollTop /
rowHeight) is floor division on integers; the max(0, _) clamp is applied
before the subtraction result is used as an index. -/
def calculateVirtualScroll (data : List α) (config : VirtualScrollConfig)
    (scrollTop : Int) : VirtualScrollState :=
  let totalHeight := data.length * config.rowHeight
  let startIndex : Nat :=
    (max 0 (Int.fdiv scrollTop (config.rowHeight : Int) - (config.overscan : Int))).toNat
  let visibleRows := ceilDiv config.containerHeight config.rowHeight
  let endIndex := min data.length (startIndex + visibleRows + config.overscan * 2)
  { startIndex := startIndex
    endIndex := endIndex
    totalHeight := totalHeight
    scrollTop := scrollTop
    visibleRows := visibleRows
    offsetY := startIndex * config.rowHeight }

/-- virtual-scroll.ts getVirtualRows: data.slice(startIndex, endIndex). -/
def getVirtualRows (data : List α) (state : VirtualScrollState) : List α :=
  (data.drop state.startIndex).take (state.endIndex - state.startIndex)

/-- VirtualScrollManager.getVisibleRows for the state computed at the
given scroll offset (handleScroll followed by getVisibleRows). -/
def getVisibleRowsAt (data : List α) (config : VirtualScrollConfig)
    (scrollTop : Int) : List α :=
  getVirtualRows data (calculateVirtualScroll data config scrollTop)

/-- The row whose pixel span [i * rowHeight, (i+1) * rowHeight) overlaps
the half-open viewport [scrollTop, scrollTop + containerHeight): the
operational meaning of a row index intersecting the viewport window. -/
def RowIntersects (i : Nat) (rowHeight : Nat) (scrollTop : Int)
    (containerHeight : Nat) : Prop :=
  ((i : Int) * rowHeight < scrollTop + containerHeight) ∧
    (scrollTop < ((i : Int) + 1) * rowHeight)

/-- What the network will deliver for a request that is not aborted:
either a parsed 2xx JSON body or a genuine (non-abort) failure, covering
both network-level rejections and the synthesized non-2xx HTTP error. -/
inductive FetchOutcome where
  | success (data : List Nat) (total : Nat)
  | failure (msg : String)
deriving DecidableEq, Repr

/-- A request issued by fetchData that has not completed yet: the id of
its AbortController, its params token, whether its controller has been
signalled, and its eventual network outcome. Rows and params are opaque
to the lifecycle logic and are modelled as naturals. -/
structure PendingRequest where
  ctlId : Nat
  params : Nat
  aborted : Bool
  outcome : FetchOutcome
deriving DecidableEq, Repr

/-- ServerSideManager observable state plus the bookkeeping needed for a
small-step interleaving semantics: the identity of the controller held in
this.abortController, the in-flight requests, a fresh-id counter, and the
log of onError invocations. -/
structure MgrState where
  loading : Bool
  error : Option String
  data : List Nat
  totalRows : Nat
  lastParams : Option Nat
  abortCtl : Option Nat
  pending : List PendingRequest
  nextCtl : Nat
  errorLog : List String
deriving DecidableEq, Repr

/-- The constructor's state. -/
def initMgr : MgrState :=
  { loading := false
    error := none
    data := []
    totalRows := 0
    lastParams := none
    abortCtl := none
    pending := []
    nextCtl := 0
    errorLog := [] }

/-- Signal the controller with the given id: every in-flight request using
it becomes aborted. -/
def abortPending (pend : List PendingRequest) (c : Nat) : List PendingRequest :=
  pend.map fun r => if r.ctlId = c then { r with aborted := true } else r

/-- Abort the held controller's requests when one is held; models the
conditional this.abortController.abort() prologue of fetchData. -/
def maybeAbort (m : MgrState) : List PendingRequest :=
  match m.abortCtl with
  | some c => abortPending m.pending c
  | none => m.pending

/-- The synchronous prefix of fetchData: abort the held controller if any,
install a fresh controller, set loading, clear error, record lastParams,
and put the new request in flight. The outcome argument is the
environment's choice of what the network will eventually deliver. -/
def fetchStart (m : MgrState) (params : Nat) (outcome : FetchOutcome) : MgrState :=
  { m with
    pending := maybeAbort m ++ [⟨m.nextCtl, params, false, outcome⟩]
    abortCtl := some m.nextCtl
    nextCtl := m.nextCtl + 1
    loading := true
    error := none
    lastParams := some params }

/-- The asynchronous continuation of fetchData for the request with
controller id c, faithful to the try/catch/finally structure: an aborted
request's AbortError is swallowed without touching observable state; a
success commits data and totalRows and clears loading (the success update
does not mention the error field); a genuine failure commits the error,
empties the data, and appends to the onError log. The finally clause
unconditionally nulls this.abortController, even when the resolving
request is a superseded one and the held controller belongs to a newer
request. -/
def resolveReq (m : MgrState) (c : Nat) : MgrState :=
  match m.pending.find? (fun r => r.ctlId == c) with
  | none => m
  | some r =>
    let m1 := { m with pending := m.pending.filter (fun r2 => r2.ctlId != c) }
    let m2 :=
      if r.aborted then m1
      else
        match r.outcome with
        | .success d t => { m1 with loading := false, data := d, totalRows := t }
        | .failure e =>
          { m1 with
            loading := false
            error := some e
            data := []
            totalRows := 0
            errorLog := m1.errorLog ++ [e] }
    { m2 with abortCtl := none }

/-- ServerSideManager.cancel: abort the held controller and drop the
reference (the debounce timer is not modelled; no claim exercises it). -/
def cancelMgr (m : MgrState) : MgrState :=
  match m.abortCtl with
  | some c => { m with pending := abortPending m.pending c, abortCtl := none }
  | none => m

/-- ServerSideManager.destroy: cancel plus clearing the listener set; the
listener set is not part of the modelled state. -/
def destroyMgr (m : MgrState) : MgrState :=
  cancelMgr m

/-- Manager states reachable by interleaving fetchData calls, request
completions, cancel and destroy. A resolve step requires the request to
still be in flight; a request aborted before its network step resolves
delivers an AbortError, which is what resolveReq's aborted branch runs. -/
inductive MgrReachable : MgrState → Prop where
  | init : MgrReachable initMgr
  | fetch (m p o) : MgrReachable m → MgrReachable (fetchStart m p o)
  | resolve (m c) (hc : (m.pending.find? (fun r => r.ctlId == c)).isSome) :
      MgrReachable m → MgrReachable (resolveReq m c)
  | cancel (m) : MgrReachable m → MgrReachable (cancelMgr m)
  | destroy (m) : MgrReachable m → MgrReachable (destroyMgr m)

/-- The observable fields of the manager state named by the claims. -/
def mgrObs (m : MgrState) : Bool × Option String × List Nat × Nat × Option Nat :=
  (m.loading, m.error, m.data, m.totalRows, m.lastParams)

/-- The observable fields a sole fetch with the given params and outcome
settles to. -/
def outcomeObs (params : Nat) : FetchOutcome →
    Bool × Option String × List Nat × Nat × Option Nat
  | .success d t => (false, none, d, t, some params)
  | .failure e => (false, some e, [], 0, some params)

/-- Requests that are in flight and not superseded. -/
def activeRequests (m : MgrState) : List PendingRequest :=
  m.pending.filter fun r => !r.aborted

/-! ## Helper lemmas -/

theorem findWithIndex_spec (pred : Row → Nat → Bool) (l : List Row) (k : Nat) (r : Row)
    (h : findWithIndex pred l k = some r) :
    ∃ i, l[i]? = some r ∧ pred r (k + i) = true ∧
      ∀ j rj, j < i → l[j]? = some rj → pred rj (k + j) = false := by
  induction l generalizing k with
  | nil => simp [findWithIndex] at h
  | cons a as ih =>
    rw [findWithIndex] at h
    by_cases hp : pred a k = true
    · rw [if_pos hp] at h
      obtain rfl : a = r := by injection h
      exact ⟨0, by simp, by simpa using hp, by intro j rj hj; omega⟩
    · rw [if_neg hp] at h
      obtain ⟨i, hi1, hi2, hi3⟩ := ih (k + 1) h
      refine ⟨i + 1, by simpa using hi1, by simpa [Nat.add_comm, Nat.add_assoc,
        Nat.add_left_comm] using hi2, ?_⟩
      intro j rj hj hrj
      cases j with
      | zero =>
        obtain rfl : a = rj := by simpa using hrj
        simpa using eq_false_of_ne_true hp
      | succ j2 =>
        have := hi3 j2 rj (by omega) (by simpa using hrj)
        simpa [Nat.add_comm, Nat.add_assoc, Nat.add_left_comm] using this

theorem mem_insertCmp {le : α → α → Bool} {x z : α} {l : List α}
    (hz : z ∈ insertCmp le x l) : z = x ∨ z ∈ l := by
  induction l with
  | nil => simpa [insertCmp] using hz
  | cons y ys ih =>
    rw [insertCmp] at hz
    by_cases h : le x y
    · rw [if_pos h] at hz
      rcases List.mem_cons.mp hz with rfl | hz
      · exact Or.inl rfl
      · exact Or.inr hz
    · rw [if_neg h] at hz
      rcases List.mem_cons.mp hz with rfl | hz
      · exact Or.inr (List.mem_cons_self _ _)
      · rcases ih hz with h2 | h2
        · exact Or.inl h2
        · exact Or.inr (List.mem_cons_of_mem _ h2)

theorem insertCmp_pairwise (p : α → Bool) (le : α → α → Bool)
    (hA : ∀ x y, p y = true → le x y = true)
    (hB : ∀ x y, p x = true → le x y = true → p y = true)
    (x : α) (l : List α)
    (hl : l.Pairwise fun a b => p a = true → p b = true) :
    (insertCmp le x l).Pairwise fun a b => p a = true → p b = true := by
  induction l with
  | nil => simp [insertCmp]
  | cons y ys ih =>
    obtain ⟨hy, hys⟩ := List.pairwise_cons.mp hl
    rw [insertCmp]
    by_cases h : le x y
    · rw [if_pos h]
      refine List.pairwise_cons.mpr ⟨?_, hl⟩
      intro z hz hx
      have hpy : p y = true := hB x y hx h
      rcases List.mem_cons.mp hz with rfl | hz
      · exact hpy
      · exact hy z hz hpy
    · rw [if_neg h]
      refine List.pairwise_cons.mpr ⟨?_, ih hys⟩
      intro z hz hpy
      exact absurd (hA x y hpy) h

theorem stableSort_pairwise (p : α → Bool) (le : α → α → Bool)
    (hA : ∀ x y, p y = true → le x y = true)
    (hB : ∀ x y, p x = true → le x y = true → p y = true)
    (l : List α) :
    (stableSort le l).Pairwise fun a b => p a = true → p b = true := by
  induction l with
  | nil => simp [stableSort]
  | cons x xs ih => exact insertCmp_pairwise p le hA hB x _ ih

theorem compareValues_null_right_nonpos (v : Value) (d : SortDirection) :
    compareValues v .null d ≤ 0 := by
  cases v <;> simp [compareValues]

theorem compareValues_null_left (v : Value) (d : SortDirection) (hv : v ≠ .null) :
    compareValues .null v d = 1 := by
  cases v <;> simp_all [compareValues]

/-! ## Demo instances used by witnesses -/

def demoCols : List Column :=
  [{ id := "id" }, { id := "name" }, { id := "age" }]

def demoRow (i : Int) (n : String) (a : Int) : Row :=
  [("id", Value.num i), ("name", Value.str n), ("age", Value.num a)]

def demoOpts : TableOptions :=
  { data := [demoRow 1 "Bob" 30, demoRow 2 "alice" 25, demoRow 3 "Carl" 40,
             demoRow 4 "ann" 35]
    columns := demoCols
    searchable := true
    filterFn := defaultFilterFn
    defaultSort := ⟨none, none⟩
    getRowId := generateRowId
    pagination := some (createPaginationState 1 2 4 [10, 25, 50, 100]) }

/-! ## C10: reset rebuilds from the construction-time options -/

/-- C10: reset() rebuilds the entire state from the constructor-time
options, including the data itself: after setData(rows2) has replaced
originalData, reset() restores originalData to the construction-time data
array (discarding rows2) and restores the default sort and empty search
term; it is not a mere restoration of view defaults over current data. -/
theorem c10_reset_restores_ctor_data (opts : TableOptions) (s : TableState)
    (rows2 : List Row) :
    (setData opts s rows2).originalData = rows2 ∧
    (resetTable opts (setData opts s rows2)).originalData = opts.data ∧
    (resetTable opts (setData opts s rows2)).sortState = opts.defaultSort ∧
    (resetTable opts (setData opts s rows2)).searchTerm = "" := by
  refine ⟨?_, ?_, ?_, ?_⟩ <;> rfl

/-! ## C8: getRowById under id collisions -/

def c8row1 : Row := [("id", Value.str "1"), ("name", Value.str "first")]

def c8row2 : Row := [("id", Value.str "1"), ("name", Value.str "second")]

def c8opts : TableOptions :=
  { data := [c8row1, c8row2]
    columns := [{ id := "id" }, { id := "name" }]
    searchable := true
    filterFn := defaultFilterFn
    defaultSort := ⟨none, none⟩
    getRowId := generateRowId
    pagination := none }

/-- C8 counterexample: two distinct rows derive the same id "1" under the
default identity function, yet getRowById("1") returns the earlier
(index 0) row, not the later (index 1) row the claim asserts. -/
theorem c8_counterexample :
    generateRowId c8row1 0 = "1" ∧ generateRowId c8row2 1 = "1" ∧
    c8row1 ≠ c8row2 ∧
    getRowById c8opts (initTable c8opts) "1" = some c8row1 ∧
    getRowById c8opts (initTable c8opts) "1" ≠ some c8row2 := by
  refine ⟨rfl, rfl, by decide, rfl, by decide⟩

/-- C8 amended: getRowById resolves id collisions first-match-wins: any
returned row is the lowest-index row of originalData whose derived id
equals the requested id (every strictly earlier row derives a different
id). -/
theorem c8_first_match_wins (opts : TableOptions) (s : TableState) (id : String)
    (r : Row) (h : getRowById opts s id = some r) :
    ∃ i, s.originalData[i]? = some r ∧ opts.getRowId r i = id ∧
      ∀ j rj, j < i → s.originalData[j]? = some rj → opts.getRowId rj j ≠ id := by
  obtain ⟨i, h1, h2, h3⟩ :=
    findWithIndex_spec (fun row index => opts.getRowId row index == id)
      s.originalData 0 r h
  refine ⟨i, h1, by simpa using h2, ?_⟩
  intro j rj hj hrj
  have := h3 j rj hj hrj
  simpa using this

/-- Witness for c8_first_match_wins at the collision instance: the
returned row is c8row1 at index 0. -/
theorem c8_first_match_wins_witness :
    getRowById c8opts (initTable c8opts) "1" = some c8row1 ∧
    ∃ i, (initTable c8opts).originalData[i]? = some c8row1 ∧
      c8opts.getRowId c8row1 i = "1" ∧
      ∀ j rj, j < i → (initTable c8opts).originalData[j]? = some rj →
        c8opts.getRowId rj j ≠ "1" :=
  ⟨rfl, c8_first_match_wins c8opts (initTable c8opts) "1" c8row1 rfl⟩

/-! ## C6: null-last ordering -/

/-- C6: the default comparator orders a null/undefined value after any
non-null value for both directions (returning 1 when null is the first
argument and -1 when it is the second), and consequently sorting any
column by the default comparator leaves every null-valued row after every
non-null-valued row in the output, for both asc and desc. -/
theorem c6_nulls_sort_last (cols : List Column) (data : List Row) (cid : String)
    (dir : SortDirection) (col : Column) (hcid : cid ≠ "")
    (hfind : cols.find? (fun c => c.id == cid) = some col)
    (hsortable : col.sortable = true) (hfn : col.sortFn = none) :
    (∀ (v : Value) (d : SortDirection), v ≠ .null →
        compareValues .null v d = 1 ∧ compareValues v .null d = -1) ∧
    (sortData cols data ⟨some cid, some dir⟩).Pairwise
      (fun a b => getCellValue a col = .null → getCellValue b col = .null) := by
  constructor
  · intro v d hv
    refine ⟨compareValues_null_left v d hv, ?_⟩
    cases v <;> simp_all [compareValues]
  · have hsort : sortData cols data ⟨some cid, some dir⟩ =
        stableSort (fun a b => decide
          (compareValues (getCellValue a col) (getCellValue b col) dir ≤ 0)) data := by
      simp [sortData, hcid, hfind, hsortable, hfn]
    rw [hsort]
    have hpw := stableSort_pairwise
      (fun r => decide (getCellValue r col = Value.null))
      (fun a b => decide
        (compareValues (getCellValue a col) (getCellValue b col) dir ≤ 0))
      (by
        intro x y hy
        simp only [decide_eq_true_eq] at hy ⊢
        rw [hy]
        exact compareValues_null_right_nonpos _ _)
      (by
        intro x y hx hle
        simp only [decide_eq_true_eq] at hx hle ⊢
        by_contra hne
        rw [hx, compareValues_null_left _ _ hne] at hle
        omega)
      data
    exact hpw.imp (by intro a b hab ha; simpa using hab (by simpa using ha))

def c6cols : List Column := [{ id := "name" }]

def c6col : Column := { id := "name" }

def c6rows : List Row :=
  [[("name", Value.str "b")], [], [("name", Value.str "a")], []]

/-- Witness for c6_nulls_sort_last on a concrete mixed null/non-null
column sorted descending. -/
theorem c6_nulls_sort_last_witness :
    (("name" : String) ≠ "" ∧
      c6cols.find? (fun c => c.id == "name") = some c6col ∧
      c6col.sortable = true ∧ c6col.sortFn = none) ∧
    ((∀ (v : Value) (d : SortDirection), v ≠ .null →
        compareValues .null v d = 1 ∧ compareValues v .null d = -1) ∧
      (sortData c6cols c6rows ⟨some "name", some .desc⟩).Pairwise
        (fun a b => getCellValue a c6col = .null → getCellValue b c6col = .null)) :=
  ⟨⟨by decide, rfl, rfl, rfl⟩,
    c6_nulls_sort_last c6cols c6rows "name" .desc c6col (by decide) rfl rfl rfl⟩

/-! ## C7: sortBy toggling without an explicit direction -/

theorem processData_sortState (opts : TableOptions) (s : TableState) :
    (processData opts s).sortState = s.sortState := rfl

theorem sortBy_none_sortState (opts : TableOptions) (s : TableState) (cid : String)
    (col : Column) (hfind : opts.columns.find? (fun c => c.id == cid) = some col)
    (hsortable : col.sortable = true) :
    (sortBy opts s cid none).sortState =
      ⟨some cid,
        some (if s.sortState.columnId = some cid then
                (if s.sortState.direction = some .asc then .desc else .asc)
              else .asc)⟩ := by
  simp [sortBy, hfind, hsortable, processData_sortState]

/-- C7: for a known sortable column, sortBy with the direction omitted
yields ascending when the column is not the currently sorted one, toggles
asc and desc on each subsequent call on the same column (in particular
three consecutive calls from a fresh column give asc, desc, asc), and
never produces the unsorted state: the resulting direction is always
set. -/
theorem c7_sort_toggle (opts : TableOptions) (s : TableState) (cid : String)
    (col : Column) (hfind : opts.columns.find? (fun c => c.id == cid) = some col)
    (hsortable : col.sortable = true) :
    (∃ d1 : SortDirection, (sortBy opts s cid none).sortState = ⟨some cid, some d1⟩) ∧
    (∀ d1, (sortBy opts s cid none).sortState = ⟨some cid, some d1⟩ →
      (sortBy opts (sortBy opts s cid none) cid none).sortState =
        ⟨some cid, some (if d1 = .asc then .desc else .asc)⟩) ∧
    (s.sortState.columnId ≠ some cid →
      (sortBy opts s cid none).sortState = ⟨some cid, some .asc⟩ ∧
      (sortBy opts (sortBy opts s cid none) cid none).sortState =
        ⟨some cid, some .desc⟩ ∧
      (sortBy opts (sortBy opts (sortBy opts s cid none) cid none) cid none).sortState =
        ⟨some cid, some .asc⟩) := by
  have h1 := sortBy_none_sortState opts s cid col hfind hsortable
  refine ⟨⟨_, h1⟩, ?_, ?_⟩
  · intro d1 hd1
    rw [sortBy_none_sortState opts _ cid col hfind hsortable, hd1]
    cases d1 <;> simp
  · intro hne
    have e1 : (sortBy opts s cid none).sortState = ⟨some cid, some .asc⟩ := by
      rw [h1]
      simp [if_neg hne]
    have e2 : (sortBy opts (sortBy opts s cid none) cid none).sortState =
        ⟨some cid, some .desc⟩ := by
      rw [sortBy_none_sortState opts _ cid col hfind hsortable, e1]
      simp
    have e3 : (sortBy opts (sortBy opts (sortBy opts s cid none) cid none)
        cid none).sortState = ⟨some cid, some .asc⟩ := by
      rw [sortBy_none_sortState opts _ cid col hfind hsortable, e2]
      simp
    exact ⟨e1, e2, e3⟩

def c7col : Column := { id := "age" }

/-- Witness for c7_sort_toggle on the demo table, whose initial sort state
is unsorted. -/
theorem c7_sort_toggle_witness :
    (demoOpts.columns.find? (fun c => c.id == "age") = some c7col ∧
      c7col.sortable = true) ∧
    ((∃ d1 : SortDirection,
        (sortBy demoOpts (initTable demoOpts) "age" none).sortState =
          ⟨some "age", some d1⟩) ∧
      (∀ d1, (sortBy demoOpts (initTable demoOpts) "age" none).sortState =
          ⟨some "age", some d1⟩ →
        (sortBy demoOpts (sortBy demoOpts (initTable demoOpts) "age" none)
            "age" none).sortState =
          ⟨some "age", some (if d1 = .asc then .desc else .asc)⟩) ∧
      ((initTable demoOpts).sortState.columnId ≠ some "age" →
        (sortBy demoOpts (initTable demoOpts) "age" none).sortState =
          ⟨some "age", some .asc⟩ ∧
        (sortBy demoOpts (sortBy demoOpts (initTable demoOpts) "age" none)
            "age" none).sortState = ⟨some "age", some .desc⟩ ∧
        (sortBy demoOpts (sortBy demoOpts (sortBy demoOpts (initTable demoOpts)
            "age" none) "age" none) "age" none).sortState =
          ⟨some "age", some .asc⟩)) :=
  ⟨⟨rfl, rfl⟩, c7_sort_toggle demoOpts (initTable demoOpts) "age" c7col rfl rfl⟩

/-! ## Virtual scroll arithmetic helpers -/

theorem ceilDiv_mul_ge (a b : Nat) (hb : 0 < b) : a ≤ ceilDiv a b * b := by
  have h1 := Nat.div_add_mod (a + b - 1) b
  have h2 : (a + b - 1) % b < b := Nat.mod_lt _ hb
  rw [ceilDiv, Nat.mul_comm]
  generalize hq : (a + b - 1) / b = q at h1
  generalize hr : (a + b - 1) % b = r at h1 h2
  generalize hM : b * q = M at h1 ⊢
  omega

theorem lt_ceilDiv (a b x : Nat) (hb : 0 < b) (h : x * b < a) : x < ceilDiv a b := by
  have h1 := Nat.div_add_mod (a + b - 1) b
  have h2 : (a + b - 1) % b < b := Nat.mod_lt _ hb
  rw [ceilDiv]
  generalize hq : (a + b - 1) / b = q at h1
  generalize hr : (a + b - 1) % b = r at h1 h2
  by_contra hc
  push_neg at hc
  have h3 : b * q ≤ b * x := Nat.mul_le_mul_left b hc
  have h4 : b * x = x * b := Nat.mul_comm b x
  have h5 : b * q < a := lt_of_le_of_lt (h4 ▸ h3) h
  generalize hM : b * q = M at h1 h5
  omega

theorem ceilDiv_pos (a b : Nat) (ha : 0 < a) (hb : 0 < b) : 0 < ceilDiv a b :=
  lt_ceilDiv a b 0 hb (by simpa using ha)

theorem fdiv_natCast (st h : Nat) :
    Int.fdiv (st : Int) (h : Int) = ((st / h : Nat) : Int) :=
  (Int.ofNat_fdiv st h).symm

theorem cvs_startIndex (data : List α) (cfg : VirtualScrollConfig) (st : Int) :
    (calculateVirtualScroll data cfg st).startIndex =
      (max 0 (Int.fdiv st (cfg.rowHeight : Int) - (cfg.overscan : Int))).toNat := rfl

theorem cvs_visibleRows (data : List α) (cfg : VirtualScrollConfig) (st : Int) :
    (calculateVirtualScroll data cfg st).visibleRows =
      ceilDiv cfg.containerHeight cfg.rowHeight := rfl

theorem cvs_endIndex (data : List α) (cfg : VirtualScrollConfig) (st : Int) :
    (calculateVirtualScroll data cfg st).endIndex =
      min data.length ((calculateVirtualScroll data cfg st).startIndex +
        ceilDiv cfg.containerHeight cfg.rowHeight + cfg.overscan * 2) := rfl

theorem cvs_startIndex_nat (data : List α) (rowHeight overscan containerHeight : Nat)
    (st : Nat) (hov : overscan = 0) :
    (calculateVirtualScroll data ⟨rowHeight, overscan, containerHeight⟩
      (st : Int)).startIndex = st / rowHeight := by
  rw [cvs_startIndex, hov, fdiv_natCast]
  rw [Nat.cast_zero, sub_zero, max_eq_right (Int.natCast_nonneg _), Int.toNat_natCast]

/-- Pure arithmetic core of the overscan-0 coverage analysis: any row
index whose pixel span meets the viewport lies at or after
scrollTop / rowHeight, at or before that plus the visible row count, and
strictly before it when rowHeight divides scrollTop. -/
theorem coverage_core (h ch st i : Nat) (hh : 0 < h) (hch : 0 < ch)
    (h1 : i * h < st + ch) (h2 : st < (i + 1) * h) :
    st / h ≤ i ∧ i ≤ st / h + ceilDiv ch h ∧
    (h ∣ st → i < st / h + ceilDiv ch h) := by
  have e1 : (i + 1) * h = i * h + h := by ring
  have hq : st / h < i + 1 := (Nat.div_lt_iff_lt_mul hh).mpr h2
  refine ⟨by omega, ?_, ?_⟩
  · by_contra hc
    push_neg at hc
    have hmod := Nat.div_add_mod st h
    have hmlt : st % h < h := Nat.mod_lt st hh
    have hcd : ch ≤ ceilDiv ch h * h := ceilDiv_mul_ge ch h hh
    have hmul : (st / h + ceilDiv ch h + 1) * h ≤ i * h :=
      Nat.mul_le_mul_right h (by omega)
    have e2 : (st / h + ceilDiv ch h + 1) * h =
        h * (st / h) + ceilDiv ch h * h + h := by ring
    omega
  · intro hdvd
    have heq : h * (st / h) = st := Nat.mul_div_cancel' hdvd
    have hle : st / h ≤ i := by omega
    have e3 : i * h = (i - st / h) * h + h * (st / h) := by
      have e4 : i = (i - st / h) + st / h := by omega
      calc i * h = ((i - st / h) + st / h) * h := by rw [← e4]
        _ = (i - st / h) * h + h * (st / h) := by ring
    have hsub : (i - st / h) * h < ch := by omega
    have := lt_ceilDiv ch h _ hh hsub
    omega

/-! ## C4: virtual scroll viewport coverage with overscan 0 -/

/-- C4 counterexample: rowCount 3, rowHeight 10, containerHeight 20,
overscan 0, scrollTop 5 (inside the valid range [0, totalHeight minus
containerHeight] = [0, 10]): row 2 intersects the viewport (pixels
[20, 30) overlap [5, 25)) but the computed range is [0, 2), which
excludes it. -/
theorem c4_counterexample :
    RowIntersects 2 10 5 20 ∧
    (2 : Nat) < ([0, 1, 2] : List Nat).length ∧
    (0 : Int) ≤ 5 ∧ (5 : Int) + 20 ≤ (([0, 1, 2] : List Nat).length : Int) * 10 ∧
    ¬((calculateVirtualScroll ([0, 1, 2] : List Nat) ⟨10, 0, 20⟩ 5).startIndex ≤ 2 ∧
      2 < (calculateVirtualScroll ([0, 1, 2] : List Nat) ⟨10, 0, 20⟩ 5).endIndex) := by
  refine ⟨⟨by decide, by decide⟩, by decide, by decide, by decide, by decide⟩

/-- C4 amended: with overscan 0 and a valid scrollTop, every row index
intersecting the viewport lies at or after startIndex, and lies before
endIndex except possibly the single partially visible bottom row at index
startIndex + visibleRows; such a miss can occur only when scrollTop is
not a multiple of rowHeight, since whenever rowHeight divides scrollTop
the range covers every intersecting row. -/
theorem c4_coverage (data : List α) (rowHeight containerHeight st : Nat) (i : Nat)
    (hrh : 0 < rowHeight) (hch : 0 < containerHeight)
    (hrange : st + containerHeight ≤ data.length * rowHeight)
    (hi : i < data.length)
    (hint : RowIntersects i rowHeight (st : Int) containerHeight) :
    (calculateVirtualScroll data ⟨rowHeight, 0, containerHeight⟩ (st : Int)).startIndex ≤ i ∧
    (i < (calculateVirtualScroll data ⟨rowHeight, 0, containerHeight⟩ (st : Int)).endIndex ∨
      i = (calculateVirtualScroll data ⟨rowHeight, 0, containerHeight⟩ (st : Int)).startIndex +
        (calculateVirtualScroll data ⟨rowHeight, 0, containerHeight⟩ (st : Int)).visibleRows) ∧
    (rowHeight ∣ st →
      i < (calculateVirtualScroll data ⟨rowHeight, 0, containerHeight⟩ (st : Int)).endIndex) ∧
    (¬ i < (calculateVirtualScroll data ⟨rowHeight, 0, containerHeight⟩ (st : Int)).endIndex →
      ¬ rowHeight ∣ st) := by
  obtain ⟨hint1, hint2⟩ := hint
  have hint1n : i * rowHeight < st + containerHeight := by exact_mod_cast hint1
  have hint2n : st < (i + 1) * rowHeight := by exact_mod_cast hint2
  obtain ⟨g1, g2, g3⟩ :=
    coverage_core rowHeight containerHeight st i hrh hch hint1n hint2n
  rw [cvs_startIndex_nat data rowHeight 0 containerHeight st rfl,
    cvs_endIndex, cvs_visibleRows,
    cvs_startIndex_nat data rowHeight 0 containerHeight st rfl]
  dsimp only
  refine ⟨g1, ?_, ?_, ?_⟩
  · rcases Nat.lt_or_ge i (st / rowHeight + ceilDiv containerHeight rowHeight)
      with hlt | hge
    · exact Or.inl (by omega)
    · exact Or.inr (by omega)
  · intro hdvd
    have := g3 hdvd
    omega
  · intro hni hdvd
    have := g3 hdvd
    exact hni (by omega)

/-- Witness for c4_coverage: rowCount 3, rowHeight 10, containerHeight 20,
scrollTop 10 (row-aligned), row index 1 intersects and is covered. -/
theorem c4_coverage_witness :
    (0 < 10 ∧ 0 < 20 ∧ 10 + 20 ≤ ([0, 1, 2] : List Nat).length * 10 ∧
      1 < ([0, 1, 2] : List Nat).length ∧ RowIntersects 1 10 (10 : Nat) 20) ∧
    ((calculateVirtualScroll ([0, 1, 2] : List Nat) ⟨10, 0, 20⟩
        ((10 : Nat) : Int)).startIndex ≤ 1 ∧
      (1 < (calculateVirtualScroll ([0, 1, 2] : List Nat) ⟨10, 0, 20⟩
          ((10 : Nat) : Int)).endIndex ∨
        1 = (calculateVirtualScroll ([0, 1, 2] : List Nat) ⟨10, 0, 20⟩
            ((10 : Nat) : Int)).startIndex +
          (calculateVirtualScroll ([0, 1, 2] : List Nat) ⟨10, 0, 20⟩
            ((10 : Nat) : Int)).visibleRows) ∧
      (10 ∣ 10 →
        1 < (calculateVirtualScroll ([0, 1, 2] : List Nat) ⟨10, 0, 20⟩
          ((10 : Nat) : Int)).endIndex) ∧
      (¬ 1 < (calculateVirtualScroll ([0, 1, 2] : List Nat) ⟨10, 0, 20⟩
          ((10 : Nat) : Int)).endIndex → ¬ 10 ∣ 10)) :=
  ⟨⟨by decide, by decide, by decide, by decide, by decide, by decide⟩,
    c4_coverage ([0, 1, 2] : List Nat) 10 20 10 1 (by decide) (by decide)
      (by decide) (by decide) ⟨by decide, by decide⟩⟩

/-! ## C9: virtual scroll degenerate inputs -/

/-- C9 counterexample: a one-row backing array with rowHeight 10,
containerHeight 20 and the default overscan 5 yields the empty slice, not
the single row, at scrollTop 60 (a scroll offset well past the content,
which handleScroll accepts unguarded). -/
theorem c9_counterexample :
    getVisibleRowsAt [(42 : Nat)] ⟨10, 5, 20⟩ 60 = [] ∧
    getVisibleRowsAt [(42 : Nat)] ⟨10, 5, 20⟩ 60 ≠ [42] := by
  exact ⟨by decide, by decide⟩

/-- C9 amended: getVisibleRows on an empty backing array returns the empty
list for every configuration and scrollTop; on a one-row array it returns
exactly that row for every scrollTop with floor(scrollTop / rowHeight) at
most overscan (equivalently scrollTop < rowHeight * (overscan + 1)),
which includes the whole valid scroll range [0, totalHeight minus
containerHeight] and every negative scrollTop, provided rowHeight and
containerHeight are positive; for larger scrollTop the slice is empty. -/
theorem c9_degenerate_inputs (config : VirtualScrollConfig) (scrollTop : Int) (r : α)
    (hrh : 0 < config.rowHeight) (hch : 0 < config.containerHeight)
    (hst : Int.fdiv scrollTop (config.rowHeight : Int) ≤ (config.overscan : Int)) :
    (∀ (cfg : VirtualScrollConfig) (st : Int),
        getVisibleRowsAt ([] : List α) cfg st = []) ∧
    getVisibleRowsAt [r] config scrollTop = [r] := by
  constructor
  · intro cfg st
    simp [getVisibleRowsAt, getVirtualRows]
  · have hstart : (calculateVirtualScroll [r] config scrollTop).startIndex = 0 := by
      rw [cvs_startIndex]
      omega
    have hend : (calculateVirtualScroll [r] config scrollTop).endIndex = 1 := by
      rw [cvs_endIndex, hstart]
      have := ceilDiv_pos config.containerHeight config.rowHeight hch hrh
      simp only [List.length_singleton]
      omega
    simp [getVisibleRowsAt, getVirtualRows, hstart, hend]

/-- Witness for c9_degenerate_inputs at rowHeight 10, overscan 5,
containerHeight 20, scrollTop 3. -/
theorem c9_degenerate_inputs_witness :
    ((0 : Nat) < 10 ∧ (0 : Nat) < 20 ∧ Int.fdiv 3 10 ≤ (5 : Int)) ∧
    ((∀ (cfg : VirtualScrollConfig) (st : Int),
        getVisibleRowsAt ([] : List Nat) cfg st = []) ∧
      getVisibleRowsAt [(42 : Nat)] ⟨10, 5, 20⟩ 3 = [42]) :=
  ⟨⟨by decide, by decide, by decide⟩,
    c9_degenerate_inputs ⟨10, 5, 20⟩ 3 42 (by decide) (by decide) (by decide)⟩

/-! ## C1: pipeline order invariant -/

/-- The derived-view fields always agree with the three pipeline stages
applied in order to originalData. -/
def PipelineInv (opts : TableOptions) (s : TableState) : Prop :=
  s.filteredData = filterData opts s.originalData s.searchTerm ∧
  s.sortedData = sortData opts.columns s.filteredData s.sortState ∧
  s.paginatedData = paginateData s.sortedData s.paginationState

theorem processData_pipelineInv (opts : TableOptions) (s : TableState) :
    PipelineInv opts (processData opts s) :=
  ⟨rfl, rfl, rfl⟩

theorem reachable_pipelineInv (opts : TableOptions) (s : TableState)
    (h : Reachable opts s) : PipelineInv opts s := by
  induction h with
  | init => exact processData_pipelineInv opts _
  | sortBy s cid dir hs ih =>
    rw [sortBy.eq_def]
    cases hf : opts.columns.find? (fun col => col.id == cid) with
    | none => simp only
              exact ih
    | some col =>
      simp only
      by_cases hs2 : col.sortable = false
      · simp only [hs2, if_true]
        exact ih
      · simp only [hs2, if_false]
        exact processData_pipelineInv opts _
  | clearSort s hs ih => exact processData_pipelineInv opts _
  | search s term hs ih => exact processData_pipelineInv opts _
  | goToPage s page hs ih =>
    rw [goToPage]
    cases hp : s.paginationState with
    | none => exact ih
    | some p => exact processData_pipelineInv opts _
  | nextPage s hs ih =>
    rw [nextPage]
    cases hp : s.paginationState with
    | none => exact ih
    | some p =>
      by_cases hn : p.hasNextPage
      · simp only [hn, if_true]
        rw [goToPage]
        cases hp2 : s.paginationState with
        | none => exact ih
        | some p2 => exact processData_pipelineInv opts _
      · simp only [hn, if_false]
        exact ih
  | prevPage s hs ih =>
    rw [prevPage]
    cases hp : s.paginationState with
    | none => exact ih
    | some p =>
      by_cases hn : p.hasPrevPage
      · simp only [hn, if_true]
        rw [goToPage]
        cases hp2 : s.paginationState with
        | none => exact ih
        | some p2 => exact processData_pipelineInv opts _
      · simp only [hn, if_false]
        exact ih
  | setPageSize s size hsize hs ih =>
    rw [setPageSize]
    cases hp : s.paginationState with
    | none => exact ih
    | some p => exact processData_pipelineInv opts _
  | toggleColumn s cid hs ih =>
    rw [toggleColumn]
    by_cases hc : s.hiddenColumns.contains cid
    · simp only [hc, if_true]
      exact ih
    · simp only [hc, if_false]
      exact ih
  | showColumn s cid hs ih => exact ih
  | hideColumn s cid hs ih =>
    rw [hideColumn]
    by_cases hc : s.hiddenColumns.contains cid
    · simp only [hc, if_true]
      exact ih
    · simp only [hc, if_false]
      exact ih
  | reset s hs ih => exact processData_pipelineInv opts _
  | setData s rows hs ih => exact processData_pipelineInv opts _

/-- C1: for every state reachable through the public mutators, getRows()
equals paginate(sort(filter(originalData))): the filter stage reads the
original row order, the sort stage reads only the filtered rows, and the
pagination stage slices the sorted result by [startIndex, endIndex). -/
theorem c1_pipeline_order (opts : TableOptions) (s : TableState)
    (h : Reachable opts s) :
    getRows s =
      paginateData
        (sortData opts.columns (filterData opts s.originalData s.searchTerm)
          s.sortState)
        s.paginationState := by
  obtain ⟨h1, h2, h3⟩ := reachable_pipelineInv opts s h
  show s.paginatedData = _
  rw [h3, h2, h1]

def demoState : TableState :=
  search demoOpts (sortBy demoOpts (initTable demoOpts) "age" none) "a"

/-- Witness for c1_pipeline_order at a state reached by sorting then
searching the demo table. -/
theorem c1_pipeline_order_witness :
    Reachable demoOpts demoState ∧
    getRows demoState =
      paginateData
        (sortData demoOpts.columns
          (filterData demoOpts demoState.originalData demoState.searchTerm)
          demoState.sortState)
        demoState.paginationState :=
  ⟨Reachable.search _ _ (Reachable.sortBy _ _ _ Reachable.init),
    c1_pipeline_order demoOpts demoState
      (Reachable.search _ _ (Reachable.sortBy _ _ _ Reachable.init))⟩

/-! ## C5: pagination clamping invariant -/

theorem cps_page_eq (page : Int) (ps tot : Nat) (pso : List Nat) :
    (createPaginationState page ps tot pso).page =
      (min (max 1 page) ((max 1 (ceilDiv tot ps) : Nat) : Int)).toNat := rfl

theorem cps_totalPages_eq (page : Int) (ps tot : Nat) (pso : List Nat) :
    (createPaginationState page ps tot pso).totalPages = max 1 (ceilDiv tot ps) := rfl

theorem cps_startIndex_eq (page : Int) (ps tot : Nat) (pso : List Nat) :
    (createPaginationState page ps tot pso).startIndex =
      ((createPaginationState page ps tot pso).page - 1) * ps := rfl

theorem cps_endIndex_eq (page : Int) (ps tot : Nat) (pso : List Nat) :
    (createPaginationState page ps tot pso).endIndex =
      min ((createPaginationState page ps tot pso).startIndex + ps) tot := rfl

/-- Boundary properties of createPaginationState for a positive page
size: the effective page is clamped into [1, totalPages], totalPages is
max(1, ceil(totalRows / pageSize)), the slice bounds are valid, and the
empty-data case pins page 1 with an empty slice. -/
theorem cps_props (page : Int) (ps tot : Nat) (pso : List Nat) (hps : 0 < ps) :
    1 ≤ (createPaginationState page ps tot pso).page ∧
    (createPaginationState page ps tot pso).page ≤
      (createPaginationState page ps tot pso).totalPages ∧
    (createPaginationState page ps tot pso).totalPages = max 1 (ceilDiv tot ps) ∧
    (createPaginationState page ps tot pso).startIndex ≤
      (createPaginationState page ps tot pso).endIndex ∧
    (createPaginationState page ps tot pso).endIndex ≤ tot ∧
    (tot = 0 → (createPaginationState page ps tot pso).totalPages = 1 ∧
      (createPaginationState page ps tot pso).startIndex = 0 ∧
      (createPaginationState page ps tot pso).endIndex = 0) := by
  have hT1 : 1 ≤ max 1 (ceilDiv tot ps) := le_max_left _ _
  have h1 : (1 : Int) ≤ min (max 1 page) ((max 1 (ceilDiv tot ps) : Nat) : Int) :=
    le_min (le_max_left _ _) (by exact_mod_cast hT1)
  have h2 : min (max 1 page) ((max 1 (ceilDiv tot ps) : Nat) : Int) ≤
      ((max 1 (ceilDiv tot ps) : Nat) : Int) := min_le_right _ _
  have hp1 : 1 ≤ (createPaginationState page ps tot pso).page := by
    rw [cps_page_eq]
    omega
  have hp2 : (createPaginationState page ps tot pso).page ≤ max 1 (ceilDiv tot ps) := by
    rw [cps_page_eq]
    omega
  have hzero : tot = 0 → (createPaginationState page ps tot pso).totalPages = 1 ∧
      (createPaginationState page ps tot pso).startIndex = 0 ∧
      (createPaginationState page ps tot pso).endIndex = 0 := by
    intro h0
    have hcd : ceilDiv tot ps = 0 := by
      rw [h0, ceilDiv]
      exact Nat.div_eq_of_lt (by omega)
    have htp1 : (createPaginationState page ps tot pso).totalPages = 1 := by
      rw [cps_totalPages_eq, hcd]
      decide
    have hpe : (createPaginationState page ps tot pso).page = 1 := by
      have := hp2
      rw [hcd] at this
      omega
    have hsi : (createPaginationState page ps tot pso).startIndex = 0 := by
      rw [cps_startIndex_eq, hpe]
      simp
    refine ⟨htp1, hsi, ?_⟩
    rw [cps_endIndex_eq, hsi, h0]
    simp
  have hstart_le : (createPaginationState page ps tot pso).startIndex ≤ tot := by
    rcases Nat.eq_zero_or_pos tot with h0 | h0
    · obtain ⟨_, hs0, _⟩ := hzero h0
      omega
    · have hcdpos : 0 < ceilDiv tot ps := ceilDiv_pos tot ps h0 hps
      have hTeq : max 1 (ceilDiv tot ps) = ceilDiv tot ps := max_eq_right hcdpos
      have hTmul : ceilDiv tot ps * ps ≤ tot + ps - 1 := by
        rw [ceilDiv]
        exact Nat.div_mul_le_self _ _
      have hple : (createPaginationState page ps tot pso).page - 1 ≤
          ceilDiv tot ps - 1 := by
        rw [hTeq] at hp2
        omega
      have hmul : ((createPaginationState page ps tot pso).page - 1) * ps ≤
          (ceilDiv tot ps - 1) * ps := Nat.mul_le_mul_right ps hple
      have hms : (ceilDiv tot ps - 1) * ps + ps = ceilDiv tot ps * ps := by
        have h9 : ceilDiv tot ps - 1 + 1 = ceilDiv tot ps := by omega
        calc (ceilDiv tot ps - 1) * ps + ps = (ceilDiv tot ps - 1 + 1) * ps := by ring
          _ = ceilDiv tot ps * ps := by rw [h9]
      rw [cps_startIndex_eq]
      generalize hA : ((createPaginationState page ps tot pso).page - 1) * ps = A
        at hmul
      generalize hB : (ceilDiv tot ps - 1) * ps = B at hmul hms
      generalize hC : ceilDiv tot ps * ps = C at hms hTmul
      omega
  refine ⟨hp1, by rw [cps_totalPages_eq]; exact hp2, cps_totalPages_eq page ps tot pso,
    ?_, ?_, hzero⟩
  · rw [cps_endIndex_eq]
    omega
  · rw [cps_endIndex_eq]
    omega

/-- The constructor-time options carry a positive page size when
pagination is configured; the source defaults pageSize to 10 and every
claim scopes page sizes to positive values. -/
def WFOptions (opts : TableOptions) : Prop :=
  ∀ p, opts.pagination = some p → 0 < p.pageSize

/-- Every held pagination descriptor has a positive page size and is the
image of createPaginationState at the current sorted length. -/
def PagInv (opts : TableOptions) (s : TableState) : Prop :=
  ∀ p, s.paginationState = some p →
    0 < p.pageSize ∧
    ∃ page : Int,
      p = createPaginationState page p.pageSize s.sortedData.length p.pageSizeOptions

theorem processData_paginationState (opts : TableOptions) (s : TableState) :
    (processData opts s).paginationState =
      match s.paginationState with
      | none => none
      | some p =>
        some (createPaginationState (p.page : Int) p.pageSize
          (sortData opts.columns (filterData opts s.originalData s.searchTerm)
            s.sortState).length p.pageSizeOptions) := rfl

theorem processData_sortedData (opts : TableOptions) (s : TableState) :
    (processData opts s).sortedData =
      sortData opts.columns (filterData opts s.originalData s.searchTerm)
        s.sortState := rfl

theorem processData_pagInv (opts : TableOptions) (s : TableState)
    (h : ∀ p, s.paginationState = some p → 0 < p.pageSize) :
    PagInv opts (processData opts s) := by
  intro p hp
  rw [processData_paginationState] at hp
  cases hps : s.paginationState with
  | none =>
    rw [hps] at hp
    exact absurd hp (by simp)
  | some p0 =>
    rw [hps] at hp
    have hp0 := h p0 hps
    have hpe : p = createPaginationState (p0.page : Int) p0.pageSize
        (sortData opts.columns (filterData opts s.originalData s.searchTerm)
          s.sortState).length p0.pageSizeOptions := (Option.some.inj hp).symm
    subst hpe
    exact ⟨hp0, (p0.page : Int), rfl⟩

theorem goToPage_pagInv (opts : TableOptions) (s : TableState) (page : Int)
    (ih : PagInv opts s) : PagInv opts (goToPage opts s page) := by
  rw [goToPage.eq_def]
  cases hp : s.paginationState with
  | none =>
    simp only
    exact ih
  | some p =>
    simp only
    apply processData_pagInv
    intro p2 hp2
    have : p2 = createPaginationState (min (max 1 page) (p.totalPages : Int))
        p.pageSize s.sortedData.length p.pageSizeOptions := (Option.some.inj hp2).symm
    subst this
    exact (ih p hp).1

theorem reachable_pagInv (opts : TableOptions) (s : TableState)
    (hWF : WFOptions opts) (h : Reachable opts s) : PagInv opts s := by
  induction h with
  | init =>
    apply processData_pagInv
    intro p hp
    exact hWF p hp
  | sortBy s cid dir hs ih =>
    rw [sortBy.eq_def]
    cases hf : opts.columns.find? (fun col => col.id == cid) with
    | none =>
      simp only
      exact ih
    | some col =>
      simp only
      by_cases hs2 : col.sortable = false
      · simp only [hs2, if_true]
        exact ih
      · simp only [hs2, if_false]
        apply processData_pagInv
        intro p hp
        exact (ih p hp).1
  | clearSort s hs ih =>
    apply processData_pagInv
    intro p hp
    exact (ih p hp).1
  | search s term hs ih =>
    apply processData_pagInv
    intro p hp
    have hx : (s.paginationState.map fun p0 => { p0 with page := 1 }) = some p := hp
    cases hp0 : s.paginationState with
    | none =>
      rw [hp0] at hx
      exact absurd hx (by simp)
    | some p0 =>
      rw [hp0] at hx
      have hpp : p = { p0 with page := 1 } := (Option.some.inj hx).symm
      subst hpp
      exact (ih p0 hp0).1
  | goToPage s page hs ih => exact goToPage_pagInv opts s page ih
  | nextPage s hs ih =>
    rw [nextPage.eq_def]
    cases hp : s.paginationState with
    | none =>
      simp only
      exact ih
    | some p =>
      simp only
      by_cases hn : p.hasNextPage
      · simp only [hn, if_true]
        exact goToPage_pagInv opts s _ ih
      · simp only [hn, if_false]
        exact ih
  | prevPage s hs ih =>
    rw [prevPage.eq_def]
    cases hp : s.paginationState with
    | none =>
      simp only
      exact ih
    | some p =>
      simp only
      by_cases hn : p.hasPrevPage
      · simp only [hn, if_true]
        exact goToPage_pagInv opts s _ ih
      · simp only [hn, if_false]
        exact ih
  | setPageSize s size hsize hs ih =>
    rw [setPageSize.eq_def]
    cases hp : s.paginationState with
    | none =>
      simp only
      exact ih
    | some p =>
      simp only
      apply processData_pagInv
      intro p2 hp2
      have : p2 = createPaginationState 1 size s.sortedData.length
          p.pageSizeOptions := (Option.some.inj hp2).symm
      subst this
      exact hsize
  | toggleColumn s cid hs ih =>
    rw [toggleColumn.eq_def]
    by_cases hc : s.hiddenColumns.contains cid
    · simp only [hc, if_true]
      exact ih
    · simp only [hc, if_false]
      exact ih
  | showColumn s cid hs ih => exact ih
  | hideColumn s cid hs ih =>
    rw [hideColumn.eq_def]
    by_cases hc : s.hiddenColumns.contains cid
    · simp only [hc, if_true]
      exact ih
    · simp only [hc, if_false]
      exact ih
  | reset s hs ih =>
    apply processData_pagInv
    intro p hp
    exact hWF p hp
  | setData s rows hs ih =>
    apply processData_pagInv
    intro p hp
    exact (ih p hp).1

theorem goToPage_page_clamped (opts : TableOptions) (s : TableState)
    (hWF : WFOptions opts) (hr : Reachable opts s) (q : Int) (p : PaginationState)
    (hp : s.paginationState = some p) (p2 : PaginationState)
    (hp2 : (goToPage opts s q).paginationState = some p2) :
    (p2.page : Int) = min (max 1 q) (p.totalPages : Int) := by
  obtain ⟨hps, page0, hpe⟩ := reachable_pagInv opts s hWF hr p hp
  obtain ⟨hf1, hf2, hf3⟩ := reachable_pipelineInv opts s hr
  rw [goToPage.eq_def, hp] at hp2
  simp only at hp2
  rw [processData_paginationState] at hp2
  simp only at hp2
  have hx := hp2
  have hlen : (sortData opts.columns (filterData opts s.originalData s.searchTerm)
      s.sortState).length = s.sortedData.length := by
    rw [hf2, hf1]
  rw [hlen] at hx
  have hp2e : p2 = createPaginationState
      ((createPaginationState (min (max 1 q) (p.totalPages : Int)) p.pageSize
          s.sortedData.length p.pageSizeOptions).page : Int)
      p.pageSize s.sortedData.length p.pageSizeOptions := (Option.some.inj hx).symm
  have hTP : p.totalPages = max 1 (ceilDiv s.sortedData.length p.pageSize) := by
    rw [hpe]
    rfl
  have hT1 : (1 : Int) ≤ ((max 1 (ceilDiv s.sortedData.length p.pageSize) : Nat) : Int) := by
    have : 1 ≤ max 1 (ceilDiv s.sortedData.length p.pageSize) := le_max_left _ _
    exact_mod_cast this
  rw [hp2e, cps_page_eq, cps_page_eq, hTP]
  omega

/-- C5: for every positive page size, createPaginationState clamps the
page into [1, totalPages] with totalPages = max(1, ceil(totalRows /
pageSize)) and valid slice bounds (with the totalRows = 0 case pinned to
totalPages 1 and an empty slice); moreover, on every reachable table
state the held descriptor satisfies these bounds, and goToPage clamps any
requested page (beyond totalPages or below 1) into [1, totalPages]. -/
theorem c5_pagination_bounds (opts : TableOptions) (s : TableState)
    (hWF : WFOptions opts) (hr : Reachable opts s) (q : Int) :
    (∀ (page : Int) (ps tot : Nat) (pso : List Nat), 0 < ps →
        1 ≤ (createPaginationState page ps tot pso).page ∧
        (createPaginationState page ps tot pso).page ≤
          (createPaginationState page ps tot pso).totalPages ∧
        (createPaginationState page ps tot pso).totalPages =
          max 1 (ceilDiv tot ps) ∧
        (createPaginationState page ps tot pso).startIndex ≤
          (createPaginationState page ps tot pso).endIndex ∧
        (createPaginationState page ps tot pso).endIndex ≤ tot ∧
        (tot = 0 → (createPaginationState page ps tot pso).totalPages = 1 ∧
          (createPaginationState page ps tot pso).startIndex = 0 ∧
          (createPaginationState page ps tot pso).endIndex = 0)) ∧
    (∀ p, s.paginationState = some p →
        (1 ≤ p.page ∧ p.page ≤ p.totalPages ∧
          p.totalPages = max 1 (ceilDiv p.totalRows p.pageSize) ∧
          p.startIndex ≤ p.endIndex ∧ p.endIndex ≤ p.totalRows) ∧
        ∀ p2, (goToPage opts s q).paginationState = some p2 →
          (p2.page : Int) = min (max 1 q) (p.totalPages : Int)) := by
  refine ⟨fun page ps tot pso hps => cps_props page ps tot pso hps, ?_⟩
  intro p hp
  obtain ⟨hps, page0, hpe⟩ := reachable_pagInv opts s hWF hr p hp
  refine ⟨?_, fun p2 hp2 => goToPage_page_clamped opts s hWF hr q p hp p2 hp2⟩
  have hprops := cps_props page0 p.pageSize s.sortedData.length p.pageSizeOptions hps
  rw [← hpe] at hprops
  have htr : p.totalRows = s.sortedData.length := by
    rw [hpe]
    rfl
  obtain ⟨g1, g2, g3, g4, g5, _⟩ := hprops
  rw [← htr] at g3 g5
  exact ⟨g1, g2, g3, g4, g5⟩

def c5opts : TableOptions := demoOpts

/-- Witness for c5_pagination_bounds on the demo table at the
out-of-range page request 99. -/
theorem c5_pagination_bounds_witness :
    WFOptions c5opts ∧ Reachable c5opts (initTable c5opts) ∧
    ((∀ (page : Int) (ps tot : Nat) (pso : List Nat), 0 < ps →
        1 ≤ (createPaginationState page ps tot pso).page ∧
        (createPaginationState page ps tot pso).page ≤
          (createPaginationState page ps tot pso).totalPages ∧
        (createPaginationState page ps tot pso).totalPages =
          max 1 (ceilDiv tot ps) ∧
        (createPaginationState page ps tot pso).startIndex ≤
          (createPaginationState page ps tot pso).endIndex ∧
        (createPaginationState page ps tot pso).endIndex ≤ tot ∧
        (tot = 0 → (createPaginationState page ps tot pso).totalPages = 1 ∧
          (createPaginationState page ps tot pso).startIndex = 0 ∧
          (createPaginationState page ps tot pso).endIndex = 0)) ∧
    (∀ p, (initTable c5opts).paginationState = some p →
        (1 ≤ p.page ∧ p.page ≤ p.totalPages ∧
          p.totalPages = max 1 (ceilDiv p.totalRows p.pageSize) ∧
          p.startIndex ≤ p.endIndex ∧ p.endIndex ≤ p.totalRows) ∧
        ∀ p2, (goToPage c5opts (initTable c5opts) 99).paginationState = some p2 →
          (p2.page : Int) = min (max 1 99) (p.totalPages : Int))) := by
  have hWF : WFOptions c5opts := by
    intro p hp
    injection hp with h
    rw [← h]
    decide
  exact ⟨hWF, Reachable.init,
    c5_pagination_bounds c5opts (initTable c5opts) hWF Reachable.init 99⟩

/-! ## Server-side manager lemmas -/

theorem find?_append_of_false {α : Type _} {p : α → Bool} {l1 l2 : List α}
    (h : ∀ x ∈ l1, p x = false) : (l1 ++ l2).find? p = l2.find? p := by
  induction l1 with
  | nil => rfl
  | cons x xs ih =>
    rw [List.cons_append, List.find?_cons_of_neg]
    · exact ih fun y hy => h y (List.mem_cons_of_mem _ hy)
    · simp [h x (List.mem_cons_self x xs)]

theorem abortPending_ctlId_mem {l : List PendingRequest} {c : Nat} {r : PendingRequest}
    (h : r ∈ abortPending l c) : ∃ r0 ∈ l, r.ctlId = r0.ctlId := by
  rw [abortPending] at h
  obtain ⟨r0, hr0, heq⟩ := List.mem_map.mp h
  refine ⟨r0, hr0, ?_⟩
  by_cases hc : r0.ctlId = c
  · rw [if_pos hc] at heq
    rw [← heq]
  · rw [if_neg hc] at heq
    rw [← heq]

theorem maybeAbort_ctlId_mem {m : MgrState} {r : PendingRequest}
    (h : r ∈ maybeAbort m) : ∃ r0 ∈ m.pending, r.ctlId = r0.ctlId := by
  rw [maybeAbort.eq_def] at h
  cases hac : m.abortCtl with
  | none =>
    rw [hac] at h
    exact ⟨r, h, rfl⟩
  | some c =>
    rw [hac] at h
    exact abortPending_ctlId_mem h

/-- All in-flight requests carry controller ids below the fresh-id
counter. -/
def MgrWF (m : MgrState) : Prop := ∀ r ∈ m.pending, r.ctlId < m.nextCtl

theorem resolveReq_nextCtl (m : MgrState) (c : Nat) :
    (resolveReq m c).nextCtl = m.nextCtl := by
  rw [resolveReq.eq_def]
  cases hf : m.pending.find? (fun r => r.ctlId == c) with
  | none => rfl
  | some r =>
    simp only
    by_cases ha : r.aborted
    · simp only [ha, if_true]
    · simp only [ha, if_false]
      cases r.outcome <;> rfl

theorem resolveReq_pending_mem (m : MgrState) (c : Nat) {r : PendingRequest}
    (h : r ∈ (resolveReq m c).pending) : r ∈ m.pending := by
  rw [resolveReq.eq_def] at h
  cases hf : m.pending.find? (fun r2 => r2.ctlId == c) with
  | none =>
    rw [hf] at h
    exact h
  | some r0 =>
    rw [hf] at h
    simp only at h
    by_cases ha : r0.aborted
    · simp only [ha, if_true] at h
      exact List.mem_of_mem_filter h
    · simp only [ha, if_false] at h
      cases ho : r0.outcome <;> rw [ho] at h <;> exact List.mem_of_mem_filter h

theorem cancelMgr_nextCtl (m : MgrState) : (cancelMgr m).nextCtl = m.nextCtl := by
  rw [cancelMgr.eq_def]
  cases hac : m.abortCtl <;> rfl

theorem cancelMgr_ctlId_mem {m : MgrState} {r : PendingRequest}
    (h : r ∈ (cancelMgr m).pending) : ∃ r0 ∈ m.pending, r.ctlId = r0.ctlId := by
  rw [cancelMgr.eq_def] at h
  cases hac : m.abortCtl with
  | none =>
    rw [hac] at h
    exact ⟨r, h, rfl⟩
  | some c =>
    rw [hac] at h
    exact abortPending_ctlId_mem h

theorem mgrReachable_wf (m : MgrState) (h : MgrReachable m) : MgrWF m := by
  induction h with
  | init =>
    intro r hr
    simp [initMgr] at hr
  | fetch m p o hm ih =>
    intro r hr
    have hr2 : r ∈ maybeAbort m ++ [⟨m.nextCtl, p, false, o⟩] := hr
    show r.ctlId < m.nextCtl + 1
    rcases List.mem_append.mp hr2 with h1 | h1
    · obtain ⟨r0, h0, he⟩ := maybeAbort_ctlId_mem h1
      have := ih r0 h0
      omega
    · have he : r = ⟨m.nextCtl, p, false, o⟩ := by simpa using h1
      rw [he]
      show m.nextCtl < m.nextCtl + 1
      omega
  | resolve m c hc hm ih =>
    intro r hr
    rw [resolveReq_nextCtl]
    exact ih r (resolveReq_pending_mem m c hr)
  | cancel m hm ih =>
    intro r hr
    rw [cancelMgr_nextCtl]
    obtain ⟨r0, h0, he⟩ := cancelMgr_ctlId_mem hr
    rw [he]
    exact ih r0 h0
  | destroy m hm ih =>
    intro r hr
    rw [destroyMgr, cancelMgr_nextCtl]
    obtain ⟨r0, h0, he⟩ := cancelMgr_ctlId_mem hr
    rw [he]
    exact ih r0 h0

theorem resolveReq_aborted (m : MgrState) (c : Nat) (r : PendingRequest)
    (hf : m.pending.find? (fun r2 => r2.ctlId == c) = some r) (ha : r.aborted = true) :
    resolveReq m c =
      { m with pending := m.pending.filter (fun r2 => r2.ctlId != c),
               abortCtl := none } := by
  rw [resolveReq.eq_def, hf]
  simp only [ha, if_true]

theorem resolveReq_success (m : MgrState) (c : Nat) (r : PendingRequest)
    (d : List Nat) (t : Nat)
    (hf : m.pending.find? (fun r2 => r2.ctlId == c) = some r) (ha : r.aborted = false)
    (ho : r.outcome = .success d t) :
    resolveReq m c =
      { m with pending := m.pending.filter (fun r2 => r2.ctlId != c),
               loading := false, data := d, totalRows := t,
               abortCtl := none } := by
  rw [resolveReq.eq_def, hf]
  simp [ha, ho]

theorem resolveReq_failure (m : MgrState) (c : Nat) (r : PendingRequest) (e : String)
    (hf : m.pending.find? (fun r2 => r2.ctlId == c) = some r) (ha : r.aborted = false)
    (ho : r.outcome = .failure e) :
    resolveReq m c =
      { m with pending := m.pending.filter (fun r2 => r2.ctlId != c),
               loading := false, error := some e, data := [], totalRows := 0,
               errorLog := m.errorLog ++ [e],
               abortCtl := none } := by
  rw [resolveReq.eq_def, hf]
  simp [ha, ho]

/-- The onError invocations a single outcome produces: one for a genuine
failure, none otherwise. -/
def failLog : FetchOutcome → List String
  | .failure e => [e]
  | _ => []

theorem abortPending_append (l1 l2 : List PendingRequest) (c : Nat) :
    abortPending (l1 ++ l2) c = abortPending l1 c ++ abortPending l2 c := by
  simp [abortPending]

/-- The error field after committing an outcome over a base value (a
success path does not write the error field). -/
def outErr (base : Option String) : FetchOutcome → Option String
  | .success _ _ => base
  | .failure e => some e

/-- The data a committed outcome leaves in state. -/
def outData : FetchOutcome → List Nat
  | .success d _ => d
  | .failure _ => []

/-- The totalRows a committed outcome leaves in state. -/
def outTotal : FetchOutcome → Nat
  | .success _ t => t
  | .failure _ => 0

/-- Resolving an in-flight, non-superseded request commits its outcome:
loading clears, data and totalRows reflect a success, error and the
onError log reflect a failure (a success leaves the error field alone),
and lastParams is untouched. -/
theorem resolveReq_active (m : MgrState) (c pp : Nat) (o : FetchOutcome)
    (hf : m.pending.find? (fun r2 => r2.ctlId == c) = some ⟨c, pp, false, o⟩) :
    mgrObs (resolveReq m c) =
      (false, outErr m.error o, outData o, outTotal o, m.lastParams) ∧
    (resolveReq m c).errorLog = m.errorLog ++ failLog o ∧
    (resolveReq m c).pending = m.pending.filter (fun r2 => r2.ctlId != c) ∧
    (resolveReq m c).abortCtl = none := by
  cases o with
  | success d t =>
    rw [resolveReq_success m c _ d t hf rfl rfl]
    exact ⟨rfl, by simp [failLog], rfl, rfl⟩
  | failure e =>
    rw [resolveReq_failure m c _ e hf rfl rfl]
    exact ⟨rfl, rfl, rfl, rfl⟩

theorem outcomeObs_match (pp : Nat) (o : FetchOutcome) :
    (false, outErr none o, outData o, outTotal o, some pp) = outcomeObs pp o := by
  cases o <;> rfl

/-! ## C2: superseding fetch discards the earlier request's resolution -/

/-- C2: from any reachable manager state, issuing fetchData(A) then
fetchData(B) before A's network step resolves leaves observable state
(loading, error, data, totalRows, lastParams) reflecting only B's
outcome, in whichever order the two resolutions are delivered; A's
superseded resolution (forced to the abort path by B's synchronous
abort()) mutates no observable state and never reaches onError — the
error log gains exactly B's contribution. -/
theorem c2_fetch_cancellation (m : MgrState) (hm : MgrReachable m)
    (pA pB : Nat) (oA oB : FetchOutcome) :
    mgrObs (resolveReq (fetchStart (fetchStart m pA oA) pB oB) m.nextCtl) =
      mgrObs (fetchStart (fetchStart m pA oA) pB oB) ∧
    (resolveReq (fetchStart (fetchStart m pA oA) pB oB) m.nextCtl).errorLog =
      m.errorLog ∧
    mgrObs (resolveReq (resolveReq (fetchStart (fetchStart m pA oA) pB oB)
      m.nextCtl) (m.nextCtl + 1)) = outcomeObs pB oB ∧
    (resolveReq (resolveReq (fetchStart (fetchStart m pA oA) pB oB)
      m.nextCtl) (m.nextCtl + 1)).errorLog = m.errorLog ++ failLog oB ∧
    mgrObs (resolveReq (resolveReq (fetchStart (fetchStart m pA oA) pB oB)
      (m.nextCtl + 1)) m.nextCtl) = outcomeObs pB oB ∧
    (resolveReq (resolveReq (fetchStart (fetchStart m pA oA) pB oB)
      (m.nextCtl + 1)) m.nextCtl).errorLog = m.errorLog ++ failLog oB := by
  have hwf := mgrReachable_wf m hm
  have hm1 : maybeAbort (fetchStart m pA oA) =
      abortPending (maybeAbort m ++ [⟨m.nextCtl, pA, false, oA⟩]) m.nextCtl := rfl
  have hsingle : abortPending [⟨m.nextCtl, pA, false, oA⟩] m.nextCtl =
      [⟨m.nextCtl, pA, true, oA⟩] := by
    simp [abortPending]
  have hm2p : (fetchStart (fetchStart m pA oA) pB oB).pending =
      abortPending (maybeAbort m) m.nextCtl ++
        ([⟨m.nextCtl, pA, true, oA⟩] ++ [⟨m.nextCtl + 1, pB, false, oB⟩]) := by
    show maybeAbort (fetchStart m pA oA) ++ [⟨m.nextCtl + 1, pB, false, oB⟩] = _
    rw [hm1, abortPending_append, hsingle, List.append_assoc]
  have hQlt : ∀ r ∈ abortPending (maybeAbort m) m.nextCtl, r.ctlId < m.nextCtl := by
    intro r hr
    obtain ⟨r1, h1, e1⟩ := abortPending_ctlId_mem hr
    obtain ⟨r0, h0, e0⟩ := maybeAbort_ctlId_mem h1
    rw [e1, e0]
    exact hwf r0 h0
  have hQfA : ∀ x ∈ abortPending (maybeAbort m) m.nextCtl,
      (x.ctlId == m.nextCtl) = false := by
    intro x hx
    have := hQlt x hx
    simp only [beq_eq_false_iff_ne]
    omega
  have hQfB : ∀ x ∈ abortPending (maybeAbort m) m.nextCtl,
      (x.ctlId == m.nextCtl + 1) = false := by
    intro x hx
    have := hQlt x hx
    simp only [beq_eq_false_iff_ne]
    omega
  have hfindA : (fetchStart (fetchStart m pA oA) pB oB).pending.find?
      (fun r2 => r2.ctlId == m.nextCtl) = some ⟨m.nextCtl, pA, true, oA⟩ := by
    rw [hm2p, find?_append_of_false hQfA, List.singleton_append,
      List.find?_cons_of_pos]
    simp
  have hstep1 := resolveReq_aborted (fetchStart (fetchStart m pA oA) pB oB)
    m.nextCtl ⟨m.nextCtl, pA, true, oA⟩ hfindA rfl
  have hobs1 : mgrObs (resolveReq (fetchStart (fetchStart m pA oA) pB oB)
      m.nextCtl) = mgrObs (fetchStart (fetchStart m pA oA) pB oB) := by
    rw [hstep1] <;> rfl
  have hlog1 : (resolveReq (fetchStart (fetchStart m pA oA) pB oB)
      m.nextCtl).errorLog = m.errorLog := by
    rw [hstep1] <;> rfl
  have hm3p : (resolveReq (fetchStart (fetchStart m pA oA) pB oB)
      m.nextCtl).pending =
      (abortPending (maybeAbort m) m.nextCtl).filter
          (fun r2 => r2.ctlId != m.nextCtl) ++
        [⟨m.nextCtl + 1, pB, false, oB⟩] := by
    rw [hstep1]
    show (fetchStart (fetchStart m pA oA) pB oB).pending.filter
        (fun r2 => r2.ctlId != m.nextCtl) = _
    rw [hm2p, List.filter_append, List.filter_append]
    simp
  have hfindB1 : (resolveReq (fetchStart (fetchStart m pA oA) pB oB)
      m.nextCtl).pending.find? (fun r2 => r2.ctlId == m.nextCtl + 1) =
      some ⟨m.nextCtl + 1, pB, false, oB⟩ := by
    rw [hm3p, find?_append_of_false
      (fun x hx => hQfB x (List.mem_of_mem_filter hx)), List.find?_cons_of_pos]
    simp
  obtain ⟨ho1, hl1, hp1, hac1⟩ := resolveReq_active _ (m.nextCtl + 1) pB oB hfindB1
  have he3 : (resolveReq (fetchStart (fetchStart m pA oA) pB oB)
      m.nextCtl).error = none := by
    rw [hstep1] <;> rfl
  have hlp3 : (resolveReq (fetchStart (fetchStart m pA oA) pB oB)
      m.nextCtl).lastParams = some pB := by
    rw [hstep1] <;> rfl
  rw [he3, hlp3] at ho1
  rw [hlog1] at hl1
  -- order 2: resolve B first, then A's aborted continuation
  have hfindB2 : (fetchStart (fetchStart m pA oA) pB oB).pending.find?
      (fun r2 => r2.ctlId == m.nextCtl + 1) = some ⟨m.nextCtl + 1, pB, false, oB⟩ := by
    rw [hm2p, find?_append_of_false hQfB, List.singleton_append,
      List.find?_cons_of_neg, List.find?_cons_of_pos]
    · simp
    · simp
  obtain ⟨ho2, hl2, hp2, hac2⟩ := resolveReq_active _ (m.nextCtl + 1) pB oB hfindB2
  have hm4p : (resolveReq (fetchStart (fetchStart m pA oA) pB oB)
      (m.nextCtl + 1)).pending =
      (abortPending (maybeAbort m) m.nextCtl).filter
          (fun r2 => r2.ctlId != m.nextCtl + 1) ++
        [⟨m.nextCtl, pA, true, oA⟩] := by
    rw [hp2, hm2p, List.filter_append, List.filter_append]
    simp
  have hfindA2 : (resolveReq (fetchStart (fetchStart m pA oA) pB oB)
      (m.nextCtl + 1)).pending.find? (fun r2 => r2.ctlId == m.nextCtl) =
      some ⟨m.nextCtl, pA, true, oA⟩ := by
    rw [hm4p, find?_append_of_false
      (fun x hx => hQfA x (List.mem_of_mem_filter hx)), List.find?_cons_of_pos]
    simp
  have hstep2 := resolveReq_aborted _ m.nextCtl ⟨m.nextCtl, pA, true, oA⟩ hfindA2 rfl
  have hobs4 : mgrObs (resolveReq (resolveReq (fetchStart (fetchStart m pA oA)
      pB oB) (m.nextCtl + 1)) m.nextCtl) =
      mgrObs (resolveReq (fetchStart (fetchStart m pA oA) pB oB)
        (m.nextCtl + 1)) := by
    rw [hstep2] <;> rfl
  have hlog4 : (resolveReq (resolveReq (fetchStart (fetchStart m pA oA) pB oB)
      (m.nextCtl + 1)) m.nextCtl).errorLog =
      (resolveReq (fetchStart (fetchStart m pA oA) pB oB)
        (m.nextCtl + 1)).errorLog := by
    rw [hstep2] <;> rfl
  have he2 : (fetchStart (fetchStart m pA oA) pB oB).error = none := rfl
  have hlp2 : (fetchStart (fetchStart m pA oA) pB oB).lastParams = some pB := rfl
  have hlg2 : (fetchStart (fetchStart m pA oA) pB oB).errorLog = m.errorLog := rfl
  rw [he2, hlp2] at ho2
  rw [hlg2] at hl2
  exact ⟨hobs1, hlog1, ho1.trans (outcomeObs_match pB oB), hl1,
    hobs4.trans (ho2.trans (outcomeObs_match pB oB)), hlog4.trans hl2⟩

/-- Witness for c2_fetch_cancellation: from the fresh manager, A fails
with a genuine error while B succeeds with one row; the final state in
both resolution orders is B's success and onError never fires for A. -/
theorem c2_fetch_cancellation_witness :
    MgrReachable initMgr ∧
    (mgrObs (resolveReq (fetchStart (fetchStart initMgr 1 (.failure "boom"))
        2 (.success [7] 9)) initMgr.nextCtl) =
      mgrObs (fetchStart (fetchStart initMgr 1 (.failure "boom"))
        2 (.success [7] 9)) ∧
    (resolveReq (fetchStart (fetchStart initMgr 1 (.failure "boom"))
        2 (.success [7] 9)) initMgr.nextCtl).errorLog = initMgr.errorLog ∧
    mgrObs (resolveReq (resolveReq (fetchStart (fetchStart initMgr 1
        (.failure "boom")) 2 (.success [7] 9)) initMgr.nextCtl)
        (initMgr.nextCtl + 1)) = outcomeObs 2 (.success [7] 9) ∧
    (resolveReq (resolveReq (fetchStart (fetchStart initMgr 1
        (.failure "boom")) 2 (.success [7] 9)) initMgr.nextCtl)
        (initMgr.nextCtl + 1)).errorLog =
      initMgr.errorLog ++ failLog (.success [7] 9) ∧
    mgrObs (resolveReq (resolveReq (fetchStart (fetchStart initMgr 1
        (.failure "boom")) 2 (.success [7] 9)) (initMgr.nextCtl + 1))
        initMgr.nextCtl) = outcomeObs 2 (.success [7] 9) ∧
    (resolveReq (resolveReq (fetchStart (fetchStart initMgr 1
        (.failure "boom")) 2 (.success [7] 9)) (initMgr.nextCtl + 1))
        initMgr.nextCtl).errorLog =
      initMgr.errorLog ++ failLog (.success [7] 9)) :=
  ⟨MgrReachable.init,
    c2_fetch_cancellation initMgr MgrReachable.init 1 2
      (.failure "boom") (.success [7] 9)⟩

/-! ## C3: the at-most-one-active-request invariant fails -/

/-- The trace that breaks the invariant: fetchData(params 1) goes in
flight; fetchData(params 2) aborts it; request 1's abort rejection is
processed (its finally clause nulls this.abortController, which at that
point holds request 2's controller); fetchData(params 3) then finds a
null abortController and cancels nothing. -/
def c3Trace : MgrState :=
  fetchStart
    (resolveReq
      (fetchStart (fetchStart initMgr 1 (.failure "e1")) 2 (.success [2] 1))
      0)
    3 (.success [3] 1)

/-- C3 evaluated at the failing trace: the state is reachable, yet two
requests (controller ids 1 and 2) are simultaneously in flight and
non-aborted — fetchData(3) did not signal cancellation of the still
in-flight request 2 — and request 2's stale resolution afterwards
overwrites observable state with its own payload (data [2], totalRows 1)
even though lastParams records request 3. -/
theorem c3_two_active_requests :
    MgrReachable c3Trace ∧
    (activeRequests c3Trace).map (fun r => r.ctlId) = [1, 2] ∧
    (activeRequests c3Trace).length = 2 ∧
    c3Trace.abortCtl = some 2 ∧
    mgrObs (resolveReq c3Trace 1) = (false, none, [2], 1, some 3) := by
  refine ⟨?_, by decide, by decide, by decide, by decide⟩
  exact MgrReachable.fetch _ _ _
    (MgrReachable.resolve _ 0 (by decide)
      (MgrReachable.fetch _ _ _ (MgrReachable.fetch _ _ _ MgrReachable.init)))

end LiteTable
